import Mathlib

/-!
Shallow embedding of `qutebrowser/config/conftypes.py` (the typed
configuration-value system: per-type `validate` and `transform` operations).

Python primitives used by the source (`str.lower`, `int(...)`, `str.split`,
`str.rstrip`, `str.endswith`, `str.startswith`, dict lookup, exceptions) are
modelled first; each configuration type's methods follow, translated
clause-by-clause from the source file.
-/

/-! ## Python string and number primitives -/

/-- ASCII lower-casing of one character, as `str.lower` does on ASCII input
(codepoints 65–90 map to 97–122, everything else is unchanged; the non-ASCII
Unicode case table is not modelled, no input in this development needs it). -/
def lowerChar (c : Char) : Char :=
  if h : 65 ≤ c.toNat ∧ c.toNat ≤ 90 then
    Char.ofNatAux (c.toNat + 32) (Or.inl (by omega))
  else c

/-- Model of Python `str.lower`. -/
def pyLower (s : String) : String := ⟨s.toList.map lowerChar⟩

/-- Numeric value of a decimal digit character. -/
def digVal (c : Char) : Nat := c.toNat - 48

/-- Value of a digit list read in base 10. -/
def natOfDigits (cs : List Char) : Nat := cs.foldl (fun a c => 10 * a + digVal c) 0

/-- Parse a non-empty all-digit character list; `none` otherwise. -/
def parseNat (cs : List Char) : Option Nat :=
  if cs ≠ [] ∧ cs.all Char.isDigit then some (natOfDigits cs) else none

/-- Model of Python's built-in `int(str)` on a character list: an optional
single sign followed by one or more decimal digits.  (CPython additionally
strips surrounding whitespace and allows `_` separators between digits;
no input handled by this development contains either.) -/
def pyIntChars (cs : List Char) : Option Int :=
  match cs with
  | [] => none
  | c :: rest =>
    if c = '-' then (parseNat rest).map (fun n => -(n : Int))
    else if c = '+' then (parseNat rest).map (fun n => (n : Int))
    else (parseNat cs).map (fun n => (n : Int))

/-- Model of Python's built-in `int(str)`: `some n` on success, `none` when
`int` would raise `ValueError`. -/
def pyInt (s : String) : Option Int := pyIntChars s.toList

/-- Magnitude part of a Python float literal: digits, optionally split by one
dot, at least one digit in total.  Values are exact rationals (IEEE rounding
is not modelled; no claim in this development depends on rounding). -/
def pyFloatMag (cs : List Char) : Option ℚ :=
  let ip := cs.takeWhile (fun c => c ≠ '.')
  match cs.dropWhile (fun c => c ≠ '.') with
  | [] => if ip ≠ [] ∧ ip.all Char.isDigit then some ((natOfDigits ip : ℚ)) else none
  | _ :: fp =>
    if (ip ≠ [] ∨ fp ≠ []) ∧ ip.all Char.isDigit ∧ fp.all Char.isDigit then
      some ((natOfDigits ip : ℚ) + (natOfDigits fp : ℚ) / ((10 : ℚ) ^ fp.length))
    else none

/-- Model of Python's built-in `float(str)` (decimal forms only; exponent,
`inf` and `nan` spellings are not modelled, nothing here uses them). -/
def pyFloat (s : String) : Option ℚ :=
  match s.toList with
  | [] => none
  | c :: rest =>
    if c = '-' then (pyFloatMag rest).map (fun q => -q)
    else if c = '+' then pyFloatMag rest
    else pyFloatMag s.toList

/-- Model of Python `str.split(',')` on a character list: split at every
comma, keeping empty pieces; the empty input yields one empty piece. -/
def splitCommaChars : List Char → List (List Char)
  | [] => [[]]
  | c :: cs =>
    let r := splitCommaChars cs
    if c = ',' then [] :: r
    else
      match r with
      | x :: xs => (c :: x) :: xs
      | [] => [[c]]

/-- Model of Python `value.split(',')`. -/
def pySplit (s : String) : List String :=
  (splitCommaChars s.toList).map (fun cs => ⟨cs⟩)

/-- Drop every trailing `'%'` from a character list, as `str.rstrip('%')`
does (all trailing occurrences, not just one). -/
def rstripPctChars (l : List Char) : List Char :=
  (l.reverse.dropWhile (fun c => c == '%')).reverse

/-- Model of Python `value.rstrip('%')`. -/
def rstripPct (s : String) : String := ⟨rstripPctChars s.toList⟩

/-- Model of Python `value.endswith('%')` (the only suffix the source tests
is the single character `'%'`). -/
def endsWithPct (s : String) : Bool := s.toList.getLast? == some '%'

/-- Model of Python `value.startswith(p)`. -/
def pyStartsWith (s p : String) : Bool := p.toList.isPrefixOf s.toList

/-- Model of Python `','.join(xs)`. -/
def joinComma : List String → String
  | [] => ""
  | [s] => s
  | s :: rest => s ++ "," ++ joinComma rest

/-- Truthiness of a Python string: non-empty strings are truthy. -/
def pyTruthy (s : String) : Bool := s.length != 0

/-- A string of `k` percent signs (used to state trailing-stripping facts). -/
def pctRep (k : Nat) : String := ⟨List.replicate k '%'⟩

/-- A non-empty string consisting solely of decimal digits. -/
def isDigitStr (s : String) : Bool := !s.toList.isEmpty && s.toList.all Char.isDigit

/-! ## Error model

`ValidationError(value, msg)` carries the rejected raw value and a reason.
A validator either returns normally (`ok`) or raises (`err`).
`BaseType.validate` may additionally raise `NotImplementedError`, a distinct
category modelled by a third constructor. -/

/-- The exception `ValidationError` of conftypes.py: rejected value plus a
human-readable reason (the `msg` argument of its constructor). -/
structure ValidationError where
  value : String
  reason : String
deriving DecidableEq

/-- Outcome of a `validate` method that can only raise `ValidationError`. -/
inductive VResult where
  | ok : VResult
  | err : ValidationError → VResult
deriving DecidableEq

/-- Outcome of `BaseType.validate`, which can raise either `ValidationError`
or `NotImplementedError`. -/
inductive BVResult where
  | ok : BVResult
  | err : ValidationError → BVResult
  | notImplemented : String → BVResult
deriving DecidableEq

/-! ## BaseType -/

/-- `BaseType.transform`: the default transform returns the value unchanged. -/
def BaseType_transform (value : String) : String := value

/-- `BaseType.validate`: if `valid_values` is defined, membership is checked
(`raise ValidationError(value, "valid values: " + ','.join(...))` on a
non-member); otherwise `NotImplementedError` is raised with the class name. -/
def BaseType_validate (valid_values : Option (List String)) (className : String)
    (value : String) : BVResult :=
  match valid_values with
  | some vv =>
    if value ∉ vv then .err ⟨value, "valid values: " ++ joinComma vv⟩
    else .ok
  | none => .notImplemented (className ++ " does not implement validate.")

/-! ## String and the String-derived enum types -/

/-- `String.transform`: `value.lower()`. -/
def String_transform (value : String) : String := pyLower value

/-- `String.validate`: "Nothing to do", always returns. -/
def String_validate (_value : String) : VResult := .ok

/-- `Position.valid_values`: north, south, east, west. -/
def Position_valid_values : List String := ["north", "south", "east", "west"]

/-- `Position` inherits `validate` from `String` (a no-op). -/
def Position_validate (value : String) : VResult := String_validate value

/-- `Position` inherits `transform` from `String` (lower-casing). -/
def Position_transform (value : String) : String := String_transform value

/-- `SelectOnRemove.valid_values`: left, right, previous. -/
def SelectOnRemove_valid_values : List String := ["left", "right", "previous"]

/-- `SelectOnRemove` inherits `validate` from `String` (a no-op). -/
def SelectOnRemove_validate (value : String) : VResult := String_validate value

/-- `SelectOnRemove` inherits `transform` from `String` (lower-casing). -/
def SelectOnRemove_transform (value : String) : String := String_transform value

/-- `LastClose.valid_values`: ignore, blank, quit. -/
def LastClose_valid_values : List String := ["ignore", "blank", "quit"]

/-- `LastClose` inherits `validate` from `String` (a no-op). -/
def LastClose_validate (value : String) : VResult := String_validate value

/-- `LastClose` inherits `transform` from `String` (lower-casing). -/
def LastClose_transform (value : String) : String := String_transform value

/-! ## Bool -/

/-- `Bool.valid_values`: true, false (with `show=False`). -/
def Bool_valid_values : List String := ["true", "false"]

/-- `Bool._BOOLEAN_STATES`, the dict taken from configparser; `none` models a
missing key. -/
def BOOLEAN_STATES (s : String) : Option Bool :=
  if s = "1" ∨ s = "yes" ∨ s = "true" ∨ s = "on" then some true
  else if s = "0" ∨ s = "no" ∨ s = "false" ∨ s = "off" then some false
  else none

/-- `Bool.transform`: `Bool._BOOLEAN_STATES[value.lower()]`; `none` models the
`KeyError` an unvalidated value would raise. -/
def Bool_transform (value : String) : Option Bool := BOOLEAN_STATES (pyLower value)

/-- `Bool.validate`: raises "must be a boolean!" unless `value.lower()` is a
key of `_BOOLEAN_STATES`. -/
def Bool_validate (value : String) : VResult :=
  if BOOLEAN_STATES (pyLower value) = none then .err ⟨value, "must be a boolean!"⟩
  else .ok

/-! ## List, IntList -/

/-- `List.transform`: `value.split(',')`. -/
def List_transform (value : String) : List String := pySplit value

/-- `List.validate`: pass. -/
def List_validate (_value : String) : VResult := .ok

/-- A Python 3 `map(int, vals)` object: creating it performs no calls; the
pending `int` applications happen only when the iterator is consumed. -/
structure IntMapObj where
  pending : List String
deriving DecidableEq

/-- Consuming the map object (e.g. `list(...)`): applies `int` to each
pending element; `none` models the `ValueError` raised at the first element
that does not parse. -/
def IntMapObj.force (m : IntMapObj) : Option (List Int) :=
  m.pending.mapM pyInt

/-- `IntList.transform`: `vals = super().transform(value); return map(int, vals)`.
The returned map object is lazy: no element is parsed here. -/
def IntList_transform (value : String) : IntMapObj := ⟨List_transform value⟩

/-- `IntList.validate`: `try: self.transform(value) except ValueError: raise
ValidationError(value, "must be a list of integers!")`.  The `try` body only
builds the lazy map object, which cannot raise `ValueError`, so the handler
is unreachable and the method always returns. -/
def IntList_validate (value : String) : VResult :=
  let _mapObject := IntList_transform value
  .ok

/-! ## Perc, PercList, PercOrInt -/

/-- `Perc.transform`: `int(value.rstrip('%'))`; `none` models the
`ValueError` an unvalidated value would raise. -/
def Perc_transform (value : String) : Option Int := pyInt (rstripPct value)

/-- `Perc.validate`: requires a trailing `%` ("does not end with %"), then
`int(value.rstrip('%'))` to parse ("invalid percentage!"), then the parsed
integer to be `>= 0` ("percentage needs to be >= 0!"). -/
def Perc_validate (value : String) : VResult :=
  if ¬ endsWithPct value then .err ⟨value, "does not end with %"⟩
  else
    match pyInt (rstripPct value) with
    | none => .err ⟨value, "invalid percentage!"⟩
    | some intval =>
      if ¬ intval ≥ 0 then .err ⟨value, "percentage needs to be >= 0!"⟩
      else .ok

/-- The `for val in vals: Perc.validate(self, val)` loop of
`PercList.validate`: stops at the first element that raises. -/
def validateEach : List String → VResult
  | [] => .ok
  | v :: vs =>
    match Perc_validate v with
    | .ok => validateEach vs
    | .err e => .err e

/-- `PercList.transform`: `[int(val.rstrip('%')) for val in vals]` where
`vals = super().transform(value)`; `none` models the `ValueError` raised at
the first element that does not parse. -/
def PercList_transform (value : String) : Option (List Int) :=
  percListElems (List_transform value)
where
  /-- The list comprehension itself, element by element. -/
  percListElems : List String → Option (List Int)
    | [] => some []
    | v :: vs =>
      match pyInt (rstripPct v) with
      | none => none
      | some n =>
        match percListElems vs with
        | none => none
        | some ns => some (n :: ns)

/-- `PercList.validate`: splits, validates each element with `Perc.validate`,
and re-wraps any element-level `ValidationError` into a single list-level
error "must be a list of percentages!" on the whole raw value. -/
def PercList_validate (value : String) : VResult :=
  match validateEach (List_transform value) with
  | .ok => .ok
  | .err _ => .err ⟨value, "must be a list of percentages!"⟩

/-- `PercOrInt.validate`: on a trailing `%`, the stripped text must parse
("invalid percentage!") to an integer in `[0, 100]` ("percentage needs to be
>= 0 and <= 100!"); otherwise the text must parse ("must be integer or
percentage!") to a non-negative integer ("must be >= 0"). -/
def PercOrInt_validate (value : String) : VResult :=
  if endsWithPct value then
    match pyInt (rstripPct value) with
    | none => .err ⟨value, "invalid percentage!"⟩
    | some intval =>
      if ¬ (0 ≤ intval ∧ intval ≤ 100) then
        .err ⟨value, "percentage needs to be >= 0 and <= 100!"⟩
      else .ok
  else
    match pyInt value with
    | none => .err ⟨value, "must be integer or percentage!"⟩
    | some intval =>
      if intval < 0 then .err ⟨value, "must be >= 0"⟩
      else .ok

/-! ## Color -/

/-- `Color._GRADIENTS`. -/
def GRADIENTS : List String := ["qlineargradient", "qradialgradient", "qconicalgradient"]

/-- `Color.validate`, parameterised by the external predicate
`QColor.isValidColor`: a value starting with a gradient-function name is
accepted without further checks; otherwise the predicate decides, with
"must be a valid color" on rejection. -/
def Color_validate (isValidColor : String → Bool) (value : String) : VResult :=
  if GRADIENTS.any (fun start => pyStartsWith value start) then .ok
  else if isValidColor value then .ok
  else .err ⟨value, "must be a valid color"⟩

/-! ## AutoSearch -/

/-- `AutoSearch.valid_values`: naive, dns, false (each with a description). -/
def AutoSearch_valid_values : List String := ["naive", "dns", "false"]

/-- `AutoSearch.validate`: lower-cased "naive"/"dns" pass; anything else is
checked by `Bool.validate(self, value)`. -/
def AutoSearch_validate (value : String) : VResult :=
  if pyLower value ∈ (["naive", "dns"] : List String) then .ok
  else Bool_validate value

/-- Result of `AutoSearch.transform`: a string or the boolean `False`. -/
inductive AutoSearchVal where
  | str : String → AutoSearchVal
  | bool : Bool → AutoSearchVal
deriving DecidableEq

/-- `AutoSearch.transform`: lower-cased "naive"/"dns" are returned as-is;
otherwise the code tests `elif super().transform(value):`.  `AutoSearch`
derives from `BaseType`, so `super().transform` is the identity and the test
is the truthiness of the raw string itself (true for every non-empty string),
in which case `"naive"` is returned; only a falsy result yields `False`. -/
def AutoSearch_transform (value : String) : AutoSearchVal :=
  if pyLower value ∈ (["naive", "dns"] : List String) then .str (pyLower value)
  else if pyTruthy (BaseType_transform value) then .str "naive"
  else .bool false

/-! ## Dynamic value model

To state idempotence of `transform` on its own output one must be able to
feed an already-transformed (possibly non-string) Python value back into
`transform`.  `PyVal` models the Python values the scalar and list types
produce or consume; each `transform` below is the same method as above,
re-read with Python's dynamic typing: a non-string argument reaches the
string/dict operations and raises (`value.lower()` and `value.split` on a
non-str raise `AttributeError`, `int(...)`/`float(...)` on a list raise
`TypeError`). -/

/-- A Python runtime value (the shapes produced by the types treated here). -/
inductive PyVal where
  | str : String → PyVal
  | int : Int → PyVal
  | bool : Bool → PyVal
  | float : ℚ → PyVal
  | list : List PyVal → PyVal

/-- Outcome of applying a `transform` method to a `PyVal`: a value, or one of
the exceptions the involved Python operations can raise. -/
inductive PyRes where
  | ok : PyVal → PyRes
  | attributeError : PyRes
  | keyError : PyRes
  | valueError : PyRes
  | typeError : PyRes

/-- `String.transform` on a dynamic value: `value.lower()`. -/
def String_transform_py : PyVal → PyRes
  | .str s => .ok (.str (pyLower s))
  | _ => .attributeError

/-- `Bool.transform` on a dynamic value:
`Bool._BOOLEAN_STATES[value.lower()]`. -/
def Bool_transform_py : PyVal → PyRes
  | .str s =>
    match BOOLEAN_STATES (pyLower s) with
    | some b => .ok (.bool b)
    | none => .keyError
  | _ => .attributeError

/-- `Int.transform` on a dynamic value: `int(value)`.  `int` parses a string,
is the identity on an int, maps a bool to 0/1, truncates a float toward
zero, and raises `TypeError` on a list. -/
def Int_transform_py : PyVal → PyRes
  | .str s =>
    match pyInt s with
    | some n => .ok (.int n)
    | none => .valueError
  | .int n => .ok (.int n)
  | .bool b => .ok (.int (if b then 1 else 0))
  | .float q => .ok (.int (if 0 ≤ q then ⌊q⌋ else ⌈q⌉))
  | .list _ => .typeError

/-- `Float.transform` on a dynamic value: `float(value)`.  `float` parses a
string, embeds an int, maps a bool to 0.0/1.0, is the identity on a float,
and raises `TypeError` on a list. -/
def Float_transform_py : PyVal → PyRes
  | .str s =>
    match pyFloat s with
    | some q => .ok (.float q)
    | none => .valueError
  | .int n => .ok (.float (n : ℚ))
  | .bool b => .ok (.float (if b then 1 else 0))
  | .float q => .ok (.float q)
  | .list _ => .typeError

/-- `List.transform` on a dynamic value: `value.split(',')`. -/
def List_transform_py : PyVal → PyRes
  | .str s => .ok (.list ((pySplit s).map PyVal.str))
  | _ => .attributeError

/-! ## Helper lemmas -/

/-- ASCII lower-casing is idempotent on characters. -/
theorem lowerChar_idem (c : Char) : lowerChar (lowerChar c) = lowerChar c := by
  unfold lowerChar
  by_cases h : 65 ≤ c.toNat ∧ c.toNat ≤ 90
  · rw [dif_pos h, dif_neg]
    have hval : (Char.ofNatAux (c.toNat + 32) (Or.inl (by omega))).toNat = c.toNat + 32 := rfl
    rw [hval]
    omega
  · rw [dif_neg h, dif_neg h]

/-- Model of `str.lower` is idempotent. -/
theorem pyLower_idem (s : String) : pyLower (pyLower s) = pyLower s := by
  show (⟨(s.toList.map lowerChar).map lowerChar⟩ : String) = ⟨s.toList.map lowerChar⟩
  rw [List.map_map]
  exact congrArg String.mk (List.map_congr_left fun c _ => lowerChar_idem c)

/-! ## Claim theorems -/

/-- C1, counterexample: the claim "validate(v) succeeds iff v is a member of
valid_values" is false on the code.  `Bool.validate` accepts "yes", which is
not in `Bool.valid_values`, and `Position.validate` (inherited from
`String.validate`, a no-op) accepts "xyzzy", which is not in
`Position.valid_values`. -/
theorem c1_counterexample :
  Bool_validate "yes" = .ok ∧ ("yes" ∈ Bool_valid_values ↔ False) ∧
  Position_validate "xyzzy" = .ok ∧ ("xyzzy" ∈ Position_valid_values ↔ False) := by decide

/-- C1, amended: what `validate` of the five enumerated types actually
accepts.  `Bool.validate` succeeds iff the lower-cased value is a key of
`_BOOLEAN_STATES`; `AutoSearch.validate` succeeds iff the lower-cased value
is "naive"/"dns" or a `_BOOLEAN_STATES` key; `Position`, `SelectOnRemove`
and `LastClose` inherit `String.validate`, which accepts every string.
`transform` of the three String-derived enum types lower-cases its input, so
every `valid_values` member (already lower-case) is mapped to itself. -/
theorem c1_enum_types_amended :
  (∀ v, Bool_validate v = .ok ↔ (BOOLEAN_STATES (pyLower v)).isSome = true) ∧
  (∀ v, AutoSearch_validate v = .ok ↔
      (pyLower v = "naive" ∨ pyLower v = "dns" ∨ (BOOLEAN_STATES (pyLower v)).isSome = true)) ∧
  (∀ v, Position_validate v = .ok ∧ SelectOnRemove_validate v = .ok ∧ LastClose_validate v = .ok) ∧
  (∀ v, Position_transform v = pyLower v ∧ SelectOnRemove_transform v = pyLower v ∧
      LastClose_transform v = pyLower v) ∧
  (∀ v, v ∈ Position_valid_values → Position_transform v = v) ∧
  (∀ v, v ∈ SelectOnRemove_valid_values → SelectOnRemove_transform v = v) ∧
  (∀ v, v ∈ LastClose_valid_values → LastClose_transform v = v) := by
  refine ⟨fun v => ?_, fun v => ?_, fun v => ⟨rfl, rfl, rfl⟩, fun v => ⟨rfl, rfl, rfl⟩,
    fun v hv => ?_, fun v hv => ?_, fun v hv => ?_⟩
  · cases h : BOOLEAN_STATES (pyLower v) <;> simp [Bool_validate, h]
  · by_cases hm : pyLower v ∈ (["naive", "dns"] : List String)
    · unfold AutoSearch_validate
      rw [if_pos hm]
      simp only [List.mem_cons, List.not_mem_nil, or_false] at hm
      simp [hm]
      tauto
    · unfold AutoSearch_validate
      rw [if_neg hm]
      simp only [List.mem_cons, List.not_mem_nil, or_false, not_or] at hm
      obtain ⟨h1, h2⟩ := hm
      simp only [h1, h2, false_or]
      cases h : BOOLEAN_STATES (pyLower v) <;> simp [Bool_validate, h]
  · fin_cases hv <;> decide
  · fin_cases hv <;> decide
  · fin_cases hv <;> decide

/-- C1, witness for the amended theorem at concrete inputs. -/
theorem c1_witness :
  Position_transform "north" = "north" ∧
  SelectOnRemove_transform "left" = "left" ∧
  LastClose_transform "quit" = "quit" ∧
  Bool_validate "true" = .ok ∧
  AutoSearch_validate "dns" = .ok :=
⟨c1_enum_types_amended.2.2.2.2.1 "north" (by decide),
 c1_enum_types_amended.2.2.2.2.2.1 "left" (by decide),
 c1_enum_types_amended.2.2.2.2.2.2 "quit" (by decide),
 (c1_enum_types_amended.1 "true").mpr (by decide),
 (c1_enum_types_amended.2.1 "dns").mpr (by decide)⟩

/-- C2: evaluation of the code at the failing input.  The claim says
`AutoSearch.transform("false")` is the boolean `False`, but the code tests
`elif super().transform(value):` where `super()` is `BaseType` (identity),
so the non-empty string "false" is truthy and the result is the string
"naive".  The other examples of the claim do hold. -/
theorem c2_autosearch_transform_code_eval :
  AutoSearch_validate "false" = .ok ∧
  AutoSearch_transform "false" = .str "naive" ∧
  AutoSearch_transform "true" = .str "naive" ∧
  AutoSearch_transform "dns" = .str "dns" ∧
  AutoSearch_transform "naive" = .str "naive" := by decide

/-- C3: evaluation of the code at the failing input.  The claim says
`IntList.validate("1,x,3")` fails with "must be a list of integers!", but
`IntList.transform` returns the lazy `map(int, vals)` object, so the `try`
block of `validate` parses nothing, no `ValueError` occurs, and `validate`
succeeds on every input; forcing the iterator afterwards is what fails. -/
theorem c3_intlist_lazy_code_eval :
  IntList_validate "1,x,3" = .ok ∧
  pyInt "x" = none ∧
  IntMapObj.force (IntList_transform "1,x,3") = none ∧
  IntList_validate "1,2,3" = .ok ∧
  IntMapObj.force (IntList_transform "1,2,3") = some [1, 2, 3] := by decide

/-- C7: the default `BaseType.validate` accepts exactly the members of
`valid_values` when it is set, reporting non-members with a reason listing
all allowed values joined by commas; when `valid_values` is unset it raises
`NotImplementedError` (a distinct category from `ValidationError`). -/
theorem c7_basetype_validate :
  (∀ vv cn v, BaseType_validate (some vv) cn v = .ok ↔ v ∈ vv) ∧
  (∀ vv cn v, v ∉ vv →
      BaseType_validate (some vv) cn v = .err ⟨v, "valid values: " ++ joinComma vv⟩) ∧
  (∀ cn v, BaseType_validate none cn v =
      .notImplemented (cn ++ " does not implement validate.")) := by
  refine ⟨fun vv cn v => ?_, fun vv cn v h => ?_, fun cn v => rfl⟩
  · by_cases h : v ∈ vv <;> simp [BaseType_validate, h]
  · simp [BaseType_validate, h]

/-- C7, witness at concrete inputs. -/
theorem c7_basetype_witness :
  BaseType_validate (some ["true", "false"]) "Bool" "true" = .ok ∧
  BaseType_validate (some ["true", "false"]) "Bool" "maybe" =
    .err ⟨"maybe", "valid values: true,false"⟩ ∧
  BaseType_validate none "Int" "42" = .notImplemented "Int does not implement validate." :=
⟨(c7_basetype_validate.1 ["true", "false"] "Bool" "true").mpr (by decide),
 c7_basetype_validate.2.1 ["true", "false"] "Bool" "maybe" (by decide),
 c7_basetype_validate.2.2 "Int" "42"⟩

/-- C8: `Color.validate` accepts any value starting with one of the three
gradient prefixes regardless of the external color predicate; otherwise it
succeeds iff the predicate holds, failing with "must be a valid color". -/
theorem c8_color_validate :
  (∀ isValidColor v, GRADIENTS.any (fun g => pyStartsWith v g) = true →
      Color_validate isValidColor v = .ok) ∧
  (∀ isValidColor v, GRADIENTS.any (fun g => pyStartsWith v g) = false →
      (Color_validate isValidColor v = .ok ↔ isValidColor v = true)) ∧
  (∀ isValidColor v, GRADIENTS.any (fun g => pyStartsWith v g) = false →
      isValidColor v = false →
      Color_validate isValidColor v = .err ⟨v, "must be a valid color"⟩) := by
  refine ⟨fun p v h => ?_, fun p v h => ?_, fun p v h hp => ?_⟩
  · simp [Color_validate, h]
  · cases hp : p v <;> simp [Color_validate, h, hp]
  · simp [Color_validate, h, hp]

/-- C8, witness: a rejecting predicate is overridden by the gradient prefix;
without a prefix the predicate decides. -/
theorem c8_color_witness :
  Color_validate (fun _ => false) "qlineargradient(0)" = .ok ∧
  Color_validate (fun _ => true) "#123" = .ok ∧
  Color_validate (fun _ => false) "#zzzzzz" = .err ⟨"#zzzzzz", "must be a valid color"⟩ :=
⟨c8_color_validate.1 (fun _ => false) "qlineargradient(0)" (by decide),
 (c8_color_validate.2.1 (fun _ => true) "#123" (by decide)).mpr rfl,
 c8_color_validate.2.2 (fun _ => false) "#zzzzzz" (by decide) rfl⟩

/-- C4: `Perc.validate` performs three checks in order, the first failing
one determining the reported error: trailing `%` ("does not end with %"),
the stripped text parsing as an integer ("invalid percentage!"), and that
integer being non-negative ("percentage needs to be >= 0!"); it succeeds iff
all three hold (no upper bound), and `Perc.transform` strips the `%` and
parses, with transform("50%") = 50. -/
theorem c4_perc_validate :
  (∀ v, endsWithPct v = false → Perc_validate v = .err ⟨v, "does not end with %"⟩) ∧
  (∀ v, endsWithPct v = true → pyInt (rstripPct v) = none →
      Perc_validate v = .err ⟨v, "invalid percentage!"⟩) ∧
  (∀ v n, endsWithPct v = true → pyInt (rstripPct v) = some n → n < 0 →
      Perc_validate v = .err ⟨v, "percentage needs to be >= 0!"⟩) ∧
  (∀ v, Perc_validate v = .ok ↔
      (endsWithPct v = true ∧ ∃ n, pyInt (rstripPct v) = some n ∧ 0 ≤ n)) ∧
  Perc_transform "50%" = some 50 := by
  refine ⟨fun v h => ?_, fun v h hp => ?_, fun v n h hp hn => ?_, fun v => ?_, by decide⟩
  · simp [Perc_validate, h]
  · simp [Perc_validate, h, hp]
  · have hn2 : ¬ n ≥ 0 := by omega
    simp [Perc_validate, h, hp, hn2]
  · by_cases he : endsWithPct v = true
    · cases hp : pyInt (rstripPct v) with
      | none => simp [Perc_validate, he, hp]
      | some n =>
        by_cases hn : n ≥ 0
        · simp [Perc_validate, he, hp, hn]
        · simp [Perc_validate, he, hp, hn]
    · simp [Perc_validate, he]

/-- C5: `PercOrInt.validate` branches on a trailing `%`: with one, it
succeeds iff the stripped text parses to an integer in [0, 100], failing
with "invalid percentage!" on a parse failure and "percentage needs to be
>= 0 and <= 100!" out of range; without one, it succeeds iff the text parses
to a non-negative integer, failing with "must be integer or percentage!" on
a parse failure and "must be >= 0" when negative. -/
theorem c5_percorint_validate :
  (∀ v, endsWithPct v = true → pyInt (rstripPct v) = none →
      PercOrInt_validate v = .err ⟨v, "invalid percentage!"⟩) ∧
  (∀ v n, endsWithPct v = true → pyInt (rstripPct v) = some n → ¬ (0 ≤ n ∧ n ≤ 100) →
      PercOrInt_validate v = .err ⟨v, "percentage needs to be >= 0 and <= 100!"⟩) ∧
  (∀ v, endsWithPct v = false → pyInt v = none →
      PercOrInt_validate v = .err ⟨v, "must be integer or percentage!"⟩) ∧
  (∀ v n, endsWithPct v = false → pyInt v = some n → n < 0 →
      PercOrInt_validate v = .err ⟨v, "must be >= 0"⟩) ∧
  (∀ v, endsWithPct v = true →
      (PercOrInt_validate v = .ok ↔ ∃ n, pyInt (rstripPct v) = some n ∧ 0 ≤ n ∧ n ≤ 100)) ∧
  (∀ v, endsWithPct v = false →
      (PercOrInt_validate v = .ok ↔ ∃ n, pyInt v = some n ∧ 0 ≤ n)) := by
  refine ⟨fun v h hp => ?_, fun v n h hp hn => ?_, fun v h hp => ?_, fun v n h hp hn => ?_,
    fun v h => ?_, fun v h => ?_⟩
  · simp [PercOrInt_validate, h, hp]
  · simp [PercOrInt_validate, h, hp, hn]
  · simp [PercOrInt_validate, h, hp]
  · simp [PercOrInt_validate, h, hp, hn]
  · cases hp : pyInt (rstripPct v) with
    | none => simp [PercOrInt_validate, h, hp]
    | some n =>
      by_cases hn : 0 ≤ n ∧ n ≤ 100
      · simp [PercOrInt_validate, h, hp, hn]
      · simp [PercOrInt_validate, h, hp, hn]
  · cases hp : pyInt v with
    | none => simp [PercOrInt_validate, h, hp]
    | some n =>
      by_cases hn : n < 0
      · simp [PercOrInt_validate, h, hp, hn]
      · simp [PercOrInt_validate, h, hp, hn]
        omega

/-- The element loop of `PercList.validate` returns normally iff every
element passes `Perc.validate`. -/
theorem validateEach_eq_ok_iff (l : List String) :
    validateEach l = .ok ↔ ∀ e ∈ l, Perc_validate e = .ok := by
  induction l with
  | nil => simp [validateEach]
  | cons v vs ih =>
    cases h : Perc_validate v with
    | ok => simp [validateEach, h, ih]
    | err e => simp [validateEach, h]

/-- C6: `PercList.validate` splits on commas and succeeds iff every element
passes `Perc.validate`; any element failure is replaced by a single
list-level error on the whole raw string with reason "must be a list of
percentages!" (not the element's own reason). -/
theorem c6_perclist_validate :
  (∀ v, PercList_validate v = .ok ↔ ∀ e ∈ pySplit v, Perc_validate e = .ok) ∧
  (∀ v e, e ∈ pySplit v → Perc_validate e ≠ .ok →
      PercList_validate v = .err ⟨v, "must be a list of percentages!"⟩) ∧
  PercList_validate "10%,abc" = .err ⟨"10%,abc", "must be a list of percentages!"⟩ := by
  refine ⟨fun v => ?_, fun v e he hne => ?_, by decide⟩
  · constructor
    · intro hok
      rw [← validateEach_eq_ok_iff]
      cases hve : validateEach (pySplit v) with
      | ok => rfl
      | err e2 =>
        unfold PercList_validate List_transform at hok
        rw [hve] at hok
        simp at hok
    · intro hall
      have hok := (validateEach_eq_ok_iff (pySplit v)).mpr hall
      unfold PercList_validate List_transform
      rw [hok]
  · cases hve : validateEach (pySplit v) with
    | ok => exact absurd ((validateEach_eq_ok_iff _).mp hve e he) hne
    | err e2 =>
      unfold PercList_validate List_transform
      rw [hve]

/-- C4, witness at concrete inputs. -/
theorem c4_witness :
  Perc_validate "50%" = .ok ∧
  Perc_validate "50" = .err ⟨"50", "does not end with %"⟩ ∧
  Perc_validate "x%" = .err ⟨"x%", "invalid percentage!"⟩ ∧
  Perc_validate "-5%" = .err ⟨"-5%", "percentage needs to be >= 0!"⟩ :=
⟨(c4_perc_validate.2.2.2.1 "50%").mpr ⟨by decide, 50, by decide, by decide⟩,
 c4_perc_validate.1 "50" (by decide),
 c4_perc_validate.2.1 "x%" (by decide) (by decide),
 c4_perc_validate.2.2.1 "-5%" (-5) (by decide) (by decide) (by decide)⟩

/-- C5, witness at concrete inputs. -/
theorem c5_witness :
  PercOrInt_validate "50%" = .ok ∧
  PercOrInt_validate "50" = .ok ∧
  PercOrInt_validate "150%" = .err ⟨"150%", "percentage needs to be >= 0 and <= 100!"⟩ ∧
  PercOrInt_validate "-1" = .err ⟨"-1", "must be >= 0"⟩ ∧
  PercOrInt_validate "x%" = .err ⟨"x%", "invalid percentage!"⟩ ∧
  PercOrInt_validate "x" = .err ⟨"x", "must be integer or percentage!"⟩ :=
⟨(c5_percorint_validate.2.2.2.2.1 "50%" (by decide)).mpr ⟨50, by decide, by decide, by decide⟩,
 (c5_percorint_validate.2.2.2.2.2 "50" (by decide)).mpr ⟨50, by decide, by decide⟩,
 c5_percorint_validate.2.1 "150%" 150 (by decide) (by decide) (by decide),
 c5_percorint_validate.2.2.2.1 "-1" (-1) (by decide) (by decide) (by decide),
 c5_percorint_validate.1 "x%" (by decide) (by decide),
 c5_percorint_validate.2.2.1 "x" (by decide) (by decide)⟩

/-- C6, witness at a concrete input. -/
theorem c6_witness :
  PercList_validate "10%,20%" = .ok :=
(c6_perclist_validate.1 "10%,20%").mpr (by decide)

/-- C9, counterexample: the claim "transform is idempotent on canonical
values for String/Bool/Int/Float/List" is false on the code for Bool and
List.  `Bool.transform("true")` is the boolean `True`, and re-applying
`Bool.transform` to it evaluates `True.lower()`, an `AttributeError`;
likewise `List.transform` of a produced list calls `.split` on a list. -/
theorem c9_counterexample :
  Bool_transform_py (.str "true") = .ok (.bool true) ∧
  Bool_transform_py (.bool true) = .attributeError ∧
  List_transform_py (.str "a,b") = .ok (.list [.str "a", .str "b"]) ∧
  List_transform_py (.list [.str "a", .str "b"]) = .attributeError :=
⟨rfl, rfl, rfl, rfl⟩

/-- C9, amended: `transform` is idempotent on its own output for the String,
Int and Float types (re-transforming any value they produce yields the same
value); for Bool and List the canonical value is not a string and
re-applying transform raises `AttributeError` (see the counterexample). -/
theorem c9_transform_idem_amended :
  (∀ v w, String_transform_py v = .ok w → String_transform_py w = .ok w) ∧
  (∀ v w, Int_transform_py v = .ok w → Int_transform_py w = .ok w) ∧
  (∀ v w, Float_transform_py v = .ok w → Float_transform_py w = .ok w) := by
  refine ⟨fun v w h => ?_, fun v w h => ?_, fun v w h => ?_⟩
  · cases v with
    | str s =>
      simp only [String_transform_py, PyRes.ok.injEq] at h
      subst h
      simp [String_transform_py, pyLower_idem]
    | int n => simp [String_transform_py] at h
    | bool b => simp [String_transform_py] at h
    | float q => simp [String_transform_py] at h
    | list l => simp [String_transform_py] at h
  · cases v with
    | str s =>
      cases hp : pyInt s with
      | none => simp [Int_transform_py, hp] at h
      | some n =>
        simp only [Int_transform_py, hp, PyRes.ok.injEq] at h
        subst h
        rfl
    | int n =>
      simp only [Int_transform_py, PyRes.ok.injEq] at h
      subst h
      rfl
    | bool b =>
      simp only [Int_transform_py, PyRes.ok.injEq] at h
      subst h
      rfl
    | float q =>
      simp only [Int_transform_py, PyRes.ok.injEq] at h
      subst h
      rfl
    | list l => simp [Int_transform_py] at h
  · cases v with
    | str s =>
      cases hp : pyFloat s with
      | none => simp [Float_transform_py, hp] at h
      | some q =>
        simp only [Float_transform_py, hp, PyRes.ok.injEq] at h
        subst h
        rfl
    | int n =>
      simp only [Float_transform_py, PyRes.ok.injEq] at h
      subst h
      rfl
    | bool b =>
      simp only [Float_transform_py, PyRes.ok.injEq] at h
      subst h
      rfl
    | float q =>
      simp only [Float_transform_py, PyRes.ok.injEq] at h
      subst h
      rfl
    | list l => simp [Float_transform_py] at h

/-- C9, witness for the amended theorem at concrete values. -/
theorem c9_idem_witness :
  String_transform_py (.str "abc") = .ok (.str "abc") ∧
  Int_transform_py (.int 42) = .ok (.int 42) ∧
  Float_transform_py (.float 2) = .ok (.float 2) :=
⟨c9_transform_idem_amended.1 (.str "AbC") (.str "abc") rfl,
 c9_transform_idem_amended.2.1 (.str "42") (.int 42) rfl,
 c9_transform_idem_amended.2.2 (.float 2) (.float 2) rfl⟩

/-- Dropping leading percent signs skips a replicated block of them. -/
theorem dropWhile_pct_replicate (k : Nat) (l : List Char) :
    List.dropWhile (fun c => c == '%') (List.replicate k '%' ++ l) =
      List.dropWhile (fun c => c == '%') l := by
  induction k with
  | zero => rfl
  | succ j ih => simp [List.replicate_succ, ih]

/-- `rstrip('%')` removes an entire appended block of percent signs. -/
theorem rstripPctChars_append_replicate (l : List Char) (k : Nat) :
    rstripPctChars (l ++ List.replicate k '%') = rstripPctChars l := by
  unfold rstripPctChars
  rw [List.reverse_append, List.reverse_replicate, dropWhile_pct_replicate]

/-- `dropWhile` is the identity when no element satisfies the test. -/
theorem dropWhile_eq_self_of_none (l : List Char) (h : ∀ c ∈ l, (c == '%') = false) :
    List.dropWhile (fun c => c == '%') l = l := by
  induction l with
  | nil => rfl
  | cons c cs ih =>
    rw [List.dropWhile_cons_of_neg]
    simp [h c (List.mem_cons_self c cs)]

/-- `rstrip('%')` leaves an all-digit list unchanged. -/
theorem rstripPctChars_of_digits (l : List Char) (h : l.all Char.isDigit = true) :
    rstripPctChars l = l := by
  unfold rstripPctChars
  rw [dropWhile_eq_self_of_none, List.reverse_reverse]
  intro c hc
  rw [List.mem_reverse] at hc
  have hd : c.isDigit = true := by
    rw [List.all_eq_true] at h
    exact h c hc
  rcases eq_or_ne c '%' with rfl | hne
  · exact absurd hd (by decide)
  · simpa using hne

/-- Unfolding equation of `pyIntChars` on a non-empty list. -/
theorem pyIntChars_cons (c : Char) (cs : List Char) :
    pyIntChars (c :: cs) =
      if c = '-' then (parseNat cs).map (fun n => -(n : Int))
      else if c = '+' then (parseNat cs).map (fun n => (n : Int))
      else (parseNat (c :: cs)).map (fun n => (n : Int)) := rfl

/-- `int()` of a non-empty all-digit string is its base-10 value. -/
theorem pyInt_of_digitStr (ds : String) (h : isDigitStr ds = true) :
    pyInt ds = some ((natOfDigits ds.toList : ℕ) : ℤ) := by
  unfold isDigitStr at h
  rw [Bool.and_eq_true] at h
  obtain ⟨hne, hall⟩ := h
  unfold pyInt
  cases hl : ds.toList with
  | nil => rw [hl] at hne; simp at hne
  | cons c cs =>
    rw [hl] at hall
    rw [List.all_eq_true] at hall
    have hc : c.isDigit = true := hall c (List.mem_cons_self c cs)
    have hcm : c ≠ '-' := by rintro rfl; exact absurd hc (by decide)
    have hcp : c ≠ '+' := by rintro rfl; exact absurd hc (by decide)
    rw [pyIntChars_cons, if_neg hcm, if_neg hcp]
    unfold parseNat
    rw [if_pos ⟨List.cons_ne_nil c cs, by rw [List.all_eq_true]; exact hall⟩]
    rfl

/-- A digit string followed by at least one percent sign ends with `%`, and
stripping trailing percent signs recovers exactly the digit string. -/
theorem strip_digits_pcts (ds : String) (k : Nat) (hd : isDigitStr ds = true) (hk : 1 ≤ k) :
    endsWithPct (ds ++ pctRep k) = true ∧ rstripPct (ds ++ pctRep k) = ds := by
  obtain ⟨j, rfl⟩ : ∃ j, k = j + 1 := ⟨k - 1, by omega⟩
  constructor
  · unfold endsWithPct
    rw [show (ds ++ pctRep (j + 1)).toList = ds.data ++ List.replicate (j + 1) '%' from rfl]
    rw [List.replicate_succ', ← List.append_assoc, List.getLast?_concat]
    rfl
  · unfold rstripPct
    rw [show (ds ++ pctRep (j + 1)).toList = ds.toList ++ List.replicate (j + 1) '%' from rfl]
    rw [rstripPctChars_append_replicate]
    rw [rstripPctChars_of_digits]
    · rfl
    · unfold isDigitStr at hd
      rw [Bool.and_eq_true] at hd
      exact hd.2

/-- Splitting a comma-free list yields that single piece. -/
theorem splitCommaChars_no_comma (l : List Char) (h : ∀ c ∈ l, c ≠ ',') :
    splitCommaChars l = [l] := by
  induction l with
  | nil => rfl
  | cons c cs ih =>
    have hc : c ≠ ',' := h c (List.mem_cons_self c cs)
    have ihh := ih (fun d hd => h d (List.mem_cons_of_mem c hd))
    simp only [splitCommaChars, ihh]
    rw [if_neg hc]

/-- Splitting at the first comma separates a comma-free head. -/
theorem splitCommaChars_append (l r : List Char) (h : ∀ c ∈ l, c ≠ ',') :
    splitCommaChars (l ++ ',' :: r) = l :: splitCommaChars r := by
  induction l with
  | nil =>
    show splitCommaChars (',' :: r) = [] :: splitCommaChars r
    simp [splitCommaChars]
  | cons c cs ih =>
    have hc : c ≠ ',' := h c (List.mem_cons_self c cs)
    have ihh := ih (fun d hd => h d (List.mem_cons_of_mem c hd))
    show splitCommaChars (c :: (cs ++ ',' :: r)) = (c :: cs) :: splitCommaChars r
    simp only [splitCommaChars, ihh]
    rw [if_neg hc]

/-- Digit characters and percent signs are never commas. -/
theorem no_comma_digits_pcts (ds : String) (k : Nat) (hd : isDigitStr ds = true) :
    ∀ c ∈ ds.toList ++ List.replicate k '%', c ≠ ',' := by
  intro c hc
  rw [List.mem_append] at hc
  rcases hc with hc | hc
  · unfold isDigitStr at hd
    rw [Bool.and_eq_true] at hd
    have : c.isDigit = true := by
      have := hd.2
      rw [List.all_eq_true] at this
      exact this c hc
    rintro rfl
    exact absurd this (by decide)
  · rw [List.eq_of_mem_replicate hc]
    decide

/-- `int(x.rstrip('%'))` of digits followed by percent signs parses the
digits. -/
theorem pyInt_rstrip_digits_pcts (ds : String) (k : Nat) (hd : isDigitStr ds = true)
    (hk : 1 ≤ k) :
    pyInt (rstripPct (ds ++ pctRep k)) = some ((natOfDigits ds.toList : ℕ) : ℤ) := by
  rw [(strip_digits_pcts ds k hd hk).2]
  exact pyInt_of_digitStr ds hd

/-- C10: `Perc` strips every trailing `%`, not just one: for any non-empty
digit string followed by one or more percent signs, `validate` succeeds and
`transform` returns the integer the digits denote (so transform("50%%") =
50); `PercList.transform` likewise strips all trailing percent signs from
each comma-separated element. -/
theorem c10_rstrip_all :
  (∀ ds k, isDigitStr ds = true → 1 ≤ k →
      Perc_validate (ds ++ pctRep k) = .ok ∧
      Perc_transform (ds ++ pctRep k) = some ((natOfDigits ds.toList : ℕ) : ℤ)) ∧
  (∀ d1 d2 k1 k2, isDigitStr d1 = true → isDigitStr d2 = true → 1 ≤ k1 → 1 ≤ k2 →
      PercList_transform (d1 ++ pctRep k1 ++ "," ++ d2 ++ pctRep k2) =
        some [((natOfDigits d1.toList : ℕ) : ℤ), ((natOfDigits d2.toList : ℕ) : ℤ)]) ∧
  (Perc_validate "50%%" = .ok ∧ Perc_transform "50%%" = some 50 ∧
   PercList_transform "50%%,30%%" = some [50, 30]) := by
  refine ⟨fun ds k hd hk => ?_, fun d1 d2 k1 k2 h1 h2 hk1 hk2 => ?_,
    by decide, by decide, by decide⟩
  · have hend := (strip_digits_pcts ds k hd hk).1
    have hint := pyInt_rstrip_digits_pcts ds k hd hk
    constructor
    · unfold Perc_validate
      rw [hend]
      simp [hint]
    · unfold Perc_transform
      exact hint
  · have hsplit : pySplit (d1 ++ pctRep k1 ++ "," ++ d2 ++ pctRep k2) =
        [d1 ++ pctRep k1, d2 ++ pctRep k2] := by
      unfold pySplit
      rw [show (d1 ++ pctRep k1 ++ "," ++ d2 ++ pctRep k2).toList =
          (((d1.toList ++ List.replicate k1 '%') ++ [',']) ++ d2.toList) ++
            List.replicate k2 '%' from rfl]
      rw [List.append_assoc, List.append_assoc, List.singleton_append]
      rw [splitCommaChars_append _ _ (no_comma_digits_pcts d1 k1 h1)]
      rw [splitCommaChars_no_comma _ (no_comma_digits_pcts d2 k2 h2)]
      rfl
    have he1 := pyInt_rstrip_digits_pcts d1 k1 h1 hk1
    have he2 := pyInt_rstrip_digits_pcts d2 k2 h2 hk2
    show PercList_transform.percListElems (List_transform (d1 ++ pctRep k1 ++ "," ++ d2 ++ pctRep k2)) = _
    rw [show List_transform (d1 ++ pctRep k1 ++ "," ++ d2 ++ pctRep k2) =
        pySplit (d1 ++ pctRep k1 ++ "," ++ d2 ++ pctRep k2) from rfl]
    rw [hsplit]
    simp [PercList_transform.percListElems, he1, he2]

/-- C10, witness at concrete inputs. -/
theorem c10_witness :
  Perc_validate "7%%%" = .ok ∧
  Perc_transform "7%%%" = some 7 ∧
  PercList_transform "12%%,3%%%" = some [12, 3] :=
⟨(c10_rstrip_all.1 "7" 3 (by decide) (by decide)).1,
 (c10_rstrip_all.1 "7" 3 (by decide) (by decide)).2,
 c10_rstrip_all.2.1 "12" "3" 2 3 (by decide) (by decide) (by decide) (by decide)⟩
